import Mathlib

/-!
Verification of the Mnemo audio-emotion pipeline.

Shallow embedding of the repository's Python sources:
* `emotion_model/dataset.py`  — `AudioEmotionDataset` (manifest loading, label
  mapping, feature extraction `_load_and_preprocess`, augmentation `_augment`);
* `emotion_model/train.py`    — emotion-class constants, the train/val split
  setup and the early-stopping training loop of `main`;
* `expo-mnemo-backend/ml_model/emotion_classifier.py` — serving-side
  `extract_features`, `classify` and `_stub_classify`;
* `expo-mnemo-backend/ml_model/classify_audio.py` — the single-file CLI.

Numeric values are modelled as rationals (`ℚ`), audio buffers as `List ℚ`,
spectrograms as `List (List ℚ)` (numpy arrays are rectangular).  The external
library functions `librosa.feature.melspectrogram` and `librosa.power_to_db`
are parameters of the embedding (`mel`, `dbFun`); theorems that need a fact
about them assume only the documented shape contract (row count `n_mels`), and
concrete model instances (`melModel`, `dbModel`) witness those assumptions.
Randomness (numpy draws) is passed in explicitly.
-/

namespace Mnemo

/-- Spectrograms: a list of rows of rationals (numpy 2-d arrays). -/
abbrev Mat := List (List ℚ)

/-- The list of row lengths of a matrix; it determines the numpy shape. -/
def rowLengths (m : Mat) : List ℕ := m.map List.length

/-- Predicate: `m` is a rectangular `r × c` matrix. -/
def Rect (m : Mat) (r c : ℕ) : Prop := rowLengths m = List.replicate r c

instance (m : Mat) (r c : ℕ) : Decidable (Rect m r c) := by
  unfold Rect; infer_instance

/-- Index-aware map over a list, starting the index at `k`
(models numpy operations that touch chosen rows/columns). -/
def mapWithIdx (f : ℕ → α → β) : ℕ → List α → List β
  | _, [] => []
  | k, a :: as => f k a :: mapWithIdx f (k + 1) as

theorem mapWithIdx_length (f : ℕ → α → β) (k : ℕ) (l : List α) :
    (mapWithIdx f k l).length = l.length := by
  induction l generalizing k with
  | nil => rfl
  | cons a as ih => simp [mapWithIdx, ih]

theorem mapWithIdx_congr_id (f : ℕ → α → α) (k : ℕ) (l : List α)
    (h : ∀ i a, f i a = a) : mapWithIdx f k l = l := by
  induction l generalizing k with
  | nil => rfl
  | cons a as ih => simp [mapWithIdx, h, ih]

/-! ## Emotion label constants

`dataset.py` line 56, `train.py` lines 34–36, `emotion_classifier.py` line 23. -/

/-- List `self.emotion_classes` from `AudioEmotionDataset.__init__` (dataset.py). -/
def emotionClasses : List String := ["happy", "sad", "angry", "surprised", "neutral"]

/-- List `EMOTION_CLASSES` from train.py. -/
def EMOTION_CLASSES : List String := ["happy", "sad", "angry", "surprised", "neutral"]

/-- List `EMOTIONS` from emotion_classifier.py. -/
def EMOTIONS : List String := ["happy", "sad", "angry", "surprised", "neutral"]

/-- Position of a string in a list (first hit), as built by
`{emotion: idx for idx, emotion in enumerate(...)}`. -/
def lookupIdx (l : List String) (s : String) : Option ℕ :=
  match l with
  | [] => none
  | x :: xs => if x = s then some 0 else (lookupIdx xs s).map (· + 1)

/-- Lookup in `self.emotion_to_idx` of dataset.py (a dict `KeyError`
is modelled by `none`). -/
def emotionToIdx (s : String) : Option ℕ := lookupIdx emotionClasses s

/-- Lookup in `EMOTION_TO_IDX` of train.py. -/
def EMOTION_TO_IDX (s : String) : Option ℕ := lookupIdx EMOTION_CLASSES s

/-- Lookup in `IDX_TO_EMOTION` of train.py. -/
def IDX_TO_EMOTION (i : ℕ) : Option String := EMOTION_CLASSES.get? i

theorem lookupIdx_eq_none_of_not_mem (l : List String) (s : String)
    (h : s ∉ l) : lookupIdx l s = none := by
  induction l with
  | nil => rfl
  | cons x xs ih =>
    simp only [List.mem_cons, not_or] at h
    simp [lookupIdx, Ne.symm h.1, ih h.2]

/-! ## Early stopping (train.py, `main`, lines 275–324)

The loop keeps `best_val_acc` and `patience_counter`; on strict improvement it
resets the counter (and checkpoints), otherwise it increments and breaks once
the counter reaches the patience threshold. -/

/-- Loop state of the training loop in train.py `main`. -/
structure ESState where
  best_val_acc : ℚ
  patience_counter : ℕ
  deriving DecidableEq

/-- Initial loop state: `best_val_acc = 0.0`, `patience_counter = 0`. -/
def earlyStopInit : ESState := ⟨0, 0⟩

/-- Number of epochs the train.py loop executes, driven by the per-epoch
validation accuracies `accs` (at most `accs.length` epochs, the epoch budget).
Each epoch runs fully; the loop breaks after the epoch in which the
incremented patience counter reaches `patienceLimit`. -/
def epochsRun (patienceLimit : ℕ) : ESState → List ℚ → ℕ
  | _, [] => 0
  | s, acc :: rest =>
    if s.best_val_acc < acc then
      1 + epochsRun patienceLimit ⟨acc, 0⟩ rest
    else
      let p := s.patience_counter + 1
      if patienceLimit ≤ p then 1
      else 1 + epochsRun patienceLimit ⟨s.best_val_acc, p⟩ rest

/-- Claim **C1** (counterexample): with patience 2 and validation accuracies
[0.5, 0.5, 0.4, 0.3], the training loop of train.py does *not* halt after the
4th epoch — the patience counter reaches 2 already at the 3rd epoch. -/
theorem c1_early_stop_counterexample :
    ¬ epochsRun 2 earlyStopInit [1/2, 1/2, 2/5, 3/10] = 4 := by
  norm_num [epochsRun, earlyStopInit]

/-- Claim **C1** (amended): with patience 2 and per-epoch validation accuracies
[0.5, 0.5, 0.4, 0.3] (counter reset only on strict improvement, incremented
otherwise, loop terminated once the counter reaches the threshold), training
halts exactly after the 3rd epoch; the 4th accuracy is never reached. -/
theorem c1_early_stop_amended :
    epochsRun 2 earlyStopInit [1/2, 1/2, 2/5, 3/10] = 3 := by
  norm_num [epochsRun, earlyStopInit]

/-! ## C5: label ↔ index round trip and bijection -/

/-- Claim **C5**: the three emotion-class lists (dataset.py `emotion_classes`,
train.py `EMOTION_CLASSES`, emotion_classifier.py `EMOTIONS`) are identical;
label → index → label round-trips to the identical string for each of the 5
labels, and every index in 0..4 is hit by exactly the labels of the list
(the mapping is a bijection between the 5 labels and 0..4). -/
theorem c5_label_index_roundtrip :
    emotionClasses = EMOTION_CLASSES ∧ emotionClasses = EMOTIONS ∧
    (emotionClasses.all fun l =>
      ((EMOTION_TO_IDX l).bind IDX_TO_EMOTION) = some l) ∧
    (emotionClasses.all fun l =>
      emotionToIdx l = EMOTION_TO_IDX l) ∧
    ((List.range 5).all fun i =>
      (emotionClasses.filter fun l => emotionToIdx l = some i).length = 1) := by
  decide

/-! ## The dataset (dataset.py, `AudioEmotionDataset`) -/

/-- One row of the labels CSV: columns `path`, `label`. -/
structure CsvRow where
  path : String
  label : String
  deriving DecidableEq

/-- The state built by `AudioEmotionDataset.__init__`. -/
structure AudioEmotionDataset where
  data_dir : String
  samples : List CsvRow
  n_mels : ℕ
  time_steps : ℕ
  sample_rate : ℕ
  use_augmentation : Bool
  deriving DecidableEq

/-- Embeds `AudioEmotionDataset.__init__` (dataset.py lines 27–63): stores the parsed
CSV rows and the configuration.  It builds the class mapping and prints the
class distribution, but performs *no* validation of the labels — it is a total
function even when a row's label is outside `emotionClasses`. -/
def datasetInit (csvRows : List CsvRow) (data_dir : String)
    (n_mels time_steps sample_rate : ℕ) (useAug : Bool) : AudioEmotionDataset :=
  { data_dir := data_dir
    samples := csvRows
    n_mels := n_mels
    time_steps := time_steps
    sample_rate := sample_rate
    use_augmentation := useAug }

/-! ## Augmentation (dataset.py, `_augment`, lines 153–183)

The numpy draws are explicit inputs: `noiseAt i j` is the Gaussian noise added
at entry (i, j); `gain` the uniform(0.9, 1.1) draw; `timeGate`/`freqGate` the
`np.random.random() > 0.5` gates; mask widths/starts the `randint` draws. -/

/-- The stochastic draws consumed by one call of `_augment`. -/
structure AugRand where
  noiseAt : ℕ → ℕ → ℚ
  gain : ℚ
  timeGate : Bool
  timeMaskWidth : ℕ
  timeMaskStart : ℕ
  freqGate : Bool
  freqMaskHeight : ℕ
  freqMaskStart : ℕ

/-- Embeds `AudioEmotionDataset._augment`: add noise, multiply by a gain, then
optionally zero a band of time columns and a band of mel rows. -/
def augment (rng : AugRand) (spectrogram : Mat) : Mat :=
  let s1 := mapWithIdx (fun i row =>
    mapWithIdx (fun j x => x + rng.noiseAt i j) 0 row) 0 spectrogram
  let s2 := s1.map fun row => row.map fun x => x * rng.gain
  let s3 := if rng.timeGate then
      s2.map fun row => mapWithIdx (fun j x =>
        if rng.timeMaskStart ≤ j ∧ j < rng.timeMaskStart + rng.timeMaskWidth
        then 0 else x) 0 row
    else s2
  if rng.freqGate then
    mapWithIdx (fun i row =>
      if rng.freqMaskStart ≤ i ∧ i < rng.freqMaskStart + rng.freqMaskHeight
      then row.map fun _ => (0 : ℚ) else row) 0 s3
  else s3

theorem rowLengths_map (f : List ℚ → List ℚ) (m : Mat)
    (h : ∀ row, (f row).length = row.length) :
    rowLengths (m.map f) = rowLengths m := by
  induction m with
  | nil => rfl
  | cons r rs ih => simp only [rowLengths, List.map_cons] at ih ⊢; rw [h, ih]

theorem rowLengths_mapWithIdx (f : ℕ → List ℚ → List ℚ) (k : ℕ) (m : Mat)
    (h : ∀ i row, (f i row).length = row.length) :
    rowLengths (mapWithIdx f k m) = rowLengths m := by
  induction m generalizing k with
  | nil => rfl
  | cons r rs ih =>
    simp only [mapWithIdx, rowLengths, List.map_cons] at ih ⊢
    rw [h, ih]

theorem rowLengths_augment (rng : AugRand) (m : Mat) :
    rowLengths (augment rng m) = rowLengths m := by
  unfold augment
  have h1 : ∀ t : Mat, rowLengths
      (if rng.freqGate then
        mapWithIdx (fun i row =>
          if rng.freqMaskStart ≤ i ∧ i < rng.freqMaskStart + rng.freqMaskHeight
          then row.map fun _ => (0 : ℚ) else row) 0 t
      else t) = rowLengths t := by
    intro t
    split
    · apply rowLengths_mapWithIdx
      intro i row
      split <;> simp
    · rfl
  rw [h1]
  have h2 : ∀ t : Mat, rowLengths
      (if rng.timeGate then
        t.map fun row => mapWithIdx (fun j x =>
          if rng.timeMaskStart ≤ j ∧ j < rng.timeMaskStart + rng.timeMaskWidth
          then 0 else x) 0 row
      else t) = rowLengths t := by
    intro t
    split
    · apply rowLengths_map
      intro row
      exact mapWithIdx_length _ _ _
    · rfl
  rw [h2, rowLengths_map _ _ (by intro row; simp),
    rowLengths_mapWithIdx _ _ _ (by intro i row; exact mapWithIdx_length _ _ _)]

/-- Claim **C7**: augmentation preserves the shape of the spectrogram, and with all
stochastic draws at their neutral values (zero noise, unit gain, both masking
gates not taken) it is the identity transform. -/
theorem c7_augment_shape_identity (rng : AugRand) (m : Mat) :
    rowLengths (augment rng m) = rowLengths m ∧
    (rng.noiseAt = (fun _ _ => 0) → rng.gain = 1 →
      rng.timeGate = false → rng.freqGate = false → augment rng m = m) := by
  refine ⟨rowLengths_augment rng m, ?_⟩
  intro hn hg ht hf
  unfold augment
  rw [hn, hg, ht, hf]
  simp only [if_false, Bool.false_eq_true]
  have h1 : mapWithIdx (fun i row =>
      mapWithIdx (fun j x => x + (fun _ _ => (0:ℚ)) i j) 0 row) 0 m = m := by
    apply mapWithIdx_congr_id
    intro i row
    apply mapWithIdx_congr_id
    intro j x
    simp
  rw [h1]
  simp

/-- Claim **C7** witness: a concrete neutral draw on a concrete 2×2 spectrogram. -/
theorem c7_augment_shape_identity_witness :
    rowLengths (augment ⟨fun _ _ => 0, 1, false, 2, 0, false, 3, 0⟩ [[1, 2], [3, 4]])
        = rowLengths [[1, 2], [3, 4]] ∧
    augment ⟨fun _ _ => 0, 1, false, 2, 0, false, 3, 0⟩ [[1, 2], [3, 4]]
        = [[1, 2], [3, 4]] :=
  ⟨(c7_augment_shape_identity _ _).1,
   (c7_augment_shape_identity ⟨fun _ _ => 0, 1, false, 2, 0, false, 3, 0⟩
      [[1, 2], [3, 4]]).2 rfl rfl rfl rfl⟩

/-! ## Feature extraction (dataset.py, `_load_and_preprocess`, lines 92–151)

`librosa.load` is modelled by an `Option (List ℚ)` decode result (`none` means
the decode raised and the `except` branch runs).  `librosa.feature.melspectrogram`
and `librosa.power_to_db`'s per-entry transform are parameters `mel`/`dbFun`;
`power_to_db(S, ref=np.max)` fixes the reference at the matrix maximum, so it
is modelled as the elementwise map `dbFun (matrix maximum)`. -/

/-- Minimum of a list of rationals accumulated from `a` (models `np.min`;
the order of traversal does not matter for a minimum). -/
def listMinA : ℚ → List ℚ → ℚ
  | a, [] => a
  | a, x :: xs => listMinA (min a x) xs

/-- Maximum of a list of rationals accumulated from `a` (models `np.max`). -/
def listMaxA : ℚ → List ℚ → ℚ
  | a, [] => a
  | a, x :: xs => listMaxA (max a x) xs

/-- Model of `np.min` over all entries of a matrix (0 for an entryless matrix, which
numpy would reject; no claim depends on that case). -/
def matMin (m : Mat) : ℚ :=
  match m.flatten with
  | [] => 0
  | x :: xs => listMinA x xs

/-- Model of `np.max` over all entries of a matrix. -/
def matMax (m : Mat) : ℚ :=
  match m.flatten with
  | [] => 0
  | x :: xs => listMaxA x xs

/-- Model of `librosa.util.normalize(audio)`: divide by the peak magnitude; a signal
with zero peak is left unchanged (below-threshold norms are not scaled). -/
def libNormalize (audio : List ℚ) : List ℚ :=
  let peak := listMaxA 0 (audio.map fun x => if x < 0 then -x else x)
  if peak = 0 then audio else audio.map fun x => x / peak

theorem libNormalize_length (audio : List ℚ) :
    (libNormalize audio).length = audio.length := by
  simp only [libNormalize]
  split <;> simp

/-- Model of `librosa.power_to_db(S, ref=np.max)`: elementwise transform of the mel
power matrix relative to its global maximum.  The numeric transform
(`10 * log10(S / ref)` with clipping) is the parameter `dbFun ref`. -/
def powerToDb (dbFun : ℚ → ℚ → ℚ) (m : Mat) : Mat :=
  let ref := matMax m
  m.map fun row => row.map (dbFun ref)

theorem powerToDb_length (dbFun : ℚ → ℚ → ℚ) (m : Mat) :
    (powerToDb dbFun m).length = m.length := by
  simp [powerToDb]

/-- Decode result of `librosa.load` (dataset.py lines 103–108): on a decode
exception the code substitutes 2 seconds of silence. -/
def decodeOrSilence (sample_rate : ℕ) (decoded : Option (List ℚ)) : List ℚ :=
  match decoded with
  | some a => a
  | none => List.replicate (sample_rate * 2) 0

/-- dataset.py lines 110–113: pad with zeros to the 1-second minimum length
(`int(sample_rate * 1.0)`). -/
def padToMin (sample_rate : ℕ) (audio : List ℚ) : List ℚ :=
  if audio.length < sample_rate then
    audio ++ List.replicate (sample_rate - audio.length) 0
  else audio

/-- dataset.py lines 115–123: trim from the center or zero-pad at the end to
the target length `int(sample_rate * (time_steps * 0.01))` — `time_steps`
frames of 10 ms, i.e. `sample_rate * time_steps / 100`. -/
def padOrTrimTarget (sample_rate time_steps : ℕ) (audio : List ℚ) : List ℚ :=
  let target_length := sample_rate * time_steps / 100
  if target_length < audio.length then
    let start := (audio.length - target_length) / 2
    (audio.drop start).take target_length
  else audio ++ List.replicate (target_length - audio.length) 0

/-- dataset.py lines 142–149: pad or trim the time dimension of the log-mel
spectrogram so that `shape[1] = time_steps`. -/
def fixTimeDim (time_steps : ℕ) (m : Mat) : Mat :=
  m.map fun row =>
    if row.length < time_steps then
      row ++ List.replicate (time_steps - row.length) 0
    else row.take time_steps

/-- Embeds `AudioEmotionDataset._load_and_preprocess`:
decode (or substitute 2 s of silence on decode failure), pad to a 1 s minimum,
center-trim or zero-pad to the target length, peak-normalize, take the mel
spectrogram, convert to dB scale, and finally pad or trim the time dimension
to exactly `time_steps` columns. -/
def loadAndPreprocess (mel : List ℚ → Mat) (dbFun : ℚ → ℚ → ℚ)
    (n_mels time_steps sample_rate : ℕ) (decoded : Option (List ℚ)) : Mat :=
  let audio := decodeOrSilence sample_rate decoded
  let audio := padToMin sample_rate audio
  let audio := padOrTrimTarget sample_rate time_steps audio
  let audio := libNormalize audio
  let mel_spec := mel audio
  let log_mel_spec := powerToDb dbFun mel_spec
  fixTimeDim time_steps log_mel_spec

theorem rowLengths_fixTimeDim (time_steps : ℕ) (m : Mat) :
    rowLengths (fixTimeDim time_steps m) = List.replicate m.length time_steps := by
  induction m with
  | nil => rfl
  | cons r rs ih =>
    simp only [fixTimeDim, rowLengths, List.map_cons, List.length_cons,
      List.replicate_succ] at ih ⊢
    rw [ih]
    congr 1
    split
    · simp; omega
    · simp; omega

/-- Padding or trimming every row to `time_steps` makes every row length
exactly `time_steps`; together with the mel contract on the row count this
gives the fixed output shape. -/
theorem loadAndPreprocess_rect (mel : List ℚ → Mat) (dbFun : ℚ → ℚ → ℚ)
    (n_mels time_steps sample_rate : ℕ) (decoded : Option (List ℚ))
    (hmel : ∀ y, (mel y).length = n_mels) :
    Rect (loadAndPreprocess mel dbFun n_mels time_steps sample_rate decoded)
      n_mels time_steps := by
  unfold loadAndPreprocess Rect
  rw [rowLengths_fixTimeDim, powerToDb_length, hmel]

/-- Claim **C4**: for every decode result (silence-substituted, shorter than, equal
to, or longer than the target duration), `_load_and_preprocess` returns a
matrix of shape exactly (`n_mels`, `time_steps`): the shape depends only on
the configured parameters, never on the input length.  The only assumption on
the external mel transform is librosa's row-count contract (`n_mels` rows). -/
theorem c4_feature_shape (mel : List ℚ → Mat) (dbFun : ℚ → ℚ → ℚ)
    (n_mels time_steps sample_rate : ℕ) (decoded : Option (List ℚ))
    (hmel : ∀ y, (mel y).length = n_mels) :
    Rect (loadAndPreprocess mel dbFun n_mels time_steps sample_rate decoded)
      n_mels time_steps :=
  loadAndPreprocess_rect mel dbFun n_mels time_steps sample_rate decoded hmel

/-! ### Concrete instances for the external librosa transforms -/

/-- Shape-level model of `librosa.feature.melspectrogram` with `hop_length`
512 and `center=True` (`1 + len(y) / 512` frames, `nm` mel rows); used to
discharge the mel row-count assumption in witnesses. -/
def melModel (nm : ℕ) (y : List ℚ) : Mat :=
  List.replicate nm (List.replicate (1 + y.length / 512) 0)

/-- Trivial per-entry dB transform instance for witnesses. -/
def dbModel (ref x : ℚ) : ℚ := x - ref

theorem melModel_length (nm : ℕ) : ∀ y, (melModel nm y).length = nm := by
  intro y; simp [melModel]

/-- Claim **C4** witness: a 3-sample input at `sample_rate = 10`, `time_steps = 4`,
`n_mels = 2` produces a 2 × 4 matrix. -/
theorem c4_feature_shape_witness :
    Rect (loadAndPreprocess (melModel 2) dbModel 2 4 10 (some [1, 2, 3])) 2 4 :=
  c4_feature_shape (melModel 2) dbModel 2 4 10 (some [1, 2, 3]) (melModel_length 2)

/-! ## Item fetching (dataset.py, `__getitem__`, lines 68–90)

The filesystem/decoder is the parameter `fs : String → Option (List ℚ)`:
`fs p = none` models `librosa.load` raising on path `p`.  Python exceptions
escaping `__getitem__` (IndexError on the sample list, KeyError on the label
dict) are modelled by `Except.error`. -/

/-- Embeds `AudioEmotionDataset.__getitem__`: look up the row, resolve the label via
the `emotion_to_idx` dict (a `KeyError` escapes here — *not* in `__init__`),
build the spectrogram, augment when `use_augmentation` is set. -/
def getItem (mel : List ℚ → Mat) (dbFun : ℚ → ℚ → ℚ)
    (d : AudioEmotionDataset) (fs : String → Option (List ℚ)) (rng : AugRand)
    (idx : ℕ) : Except String (Mat × ℕ) :=
  match d.samples.get? idx with
  | none => .error ("IndexError")
  | some sample =>
    let audio_path := d.data_dir ++ "/" ++ sample.path
    match emotionToIdx sample.label with
    | none => .error ("KeyError: " ++ sample.label)
    | some label =>
      let spectrogram :=
        loadAndPreprocess mel dbFun d.n_mels d.time_steps d.sample_rate
          (fs audio_path)
      let spectrogram :=
        if d.use_augmentation then augment rng spectrogram else spectrogram
      .ok (spectrogram, label)

/-! ## C3: unknown labels are rejected at fetch time, not at construction -/

/-- A manifest whose single row carries the label "bored", outside the fixed
5-class set. -/
def badRows : List CsvRow := [⟨"a.wav", "bored"⟩]

/-- Constructing the dataset from `badRows` (default configuration of
dataset.py, no augmentation). -/
def badDataset : AudioEmotionDataset := datasetInit badRows ("data") 64 100 16000 false

/-- A decoder that fails on every path. -/
def fsNone : String → Option (List ℚ) := fun _ => none

/-- A neutral draw for the augmentation randomness. -/
def rngNeutral : AugRand := ⟨fun _ _ => 0, 1, false, 1, 0, false, 1, 0⟩

/-- Claim **C3** (counterexample): for a manifest with the unknown label "bored",
`AudioEmotionDataset.__init__` does *not* raise — it returns a normally
constructed dataset holding the offending row — and the error (a `KeyError`
from `emotion_to_idx`) only surfaces later, when the sample is fetched via
`__getitem__`. -/
theorem c3_unknown_label_counterexample :
    badDataset = datasetInit badRows ("data") 64 100 16000 false ∧
    badDataset.samples = badRows ∧
    getItem (melModel 64) dbModel badDataset fsNone rngNeutral 0 =
      .error ("KeyError: bored") := by
  refine ⟨rfl, rfl, ?_⟩
  rfl

/-- Claim **C3** (amended): for every manifest containing a row whose label is
outside the fixed 5-class set, dataset construction succeeds (it stores the
rows unvalidated), and fetching that row's index through `__getitem__` raises
the fatal `KeyError`; the error surfaces at item fetch, not at dataset
construction. -/
theorem c3_unknown_label_amended (rows : List CsvRow) (dir : String)
    (n_mels time_steps sample_rate : ℕ) (useAug : Bool)
    (mel : List ℚ → Mat) (dbFun : ℚ → ℚ → ℚ) (fs : String → Option (List ℚ))
    (rng : AugRand) (idx : ℕ) (row : CsvRow)
    (hrow : rows.get? idx = some row)
    (hbad : row.label ∉ emotionClasses) :
    (datasetInit rows dir n_mels time_steps sample_rate useAug).samples = rows ∧
    getItem mel dbFun (datasetInit rows dir n_mels time_steps sample_rate useAug)
        fs rng idx = .error ("KeyError: " ++ row.label) := by
  refine ⟨rfl, ?_⟩
  unfold getItem datasetInit
  simp only [hrow]
  rw [show emotionToIdx row.label = none from
    lookupIdx_eq_none_of_not_mem _ _ hbad]

/-- Claim **C3** witness: the amended statement applied to the concrete manifest
`badRows` at index 0. -/
theorem c3_unknown_label_amended_witness :
    (datasetInit badRows ("data") 64 100 16000 false).samples = badRows ∧
    getItem (melModel 64) dbModel (datasetInit badRows ("data") 64 100 16000 false)
        fsNone rngNeutral 0 = .error ("KeyError: " ++ "bored") :=
  c3_unknown_label_amended badRows ("data") 64 100 16000 false (melModel 64)
    dbModel fsNone rngNeutral 0 ⟨"a.wav", "bored"⟩ rfl (by decide)

/-! ## C6: decode failure is masked by a silence substitute -/

theorem decodeOrSilence_none (sample_rate : ℕ) :
    decodeOrSilence sample_rate none =
      decodeOrSilence sample_rate (some (List.replicate (sample_rate * 2) 0)) := rfl

theorem rect_of_rowLengths_eq {m m' : Mat} {r c : ℕ}
    (h : rowLengths m' = rowLengths m) (hm : Rect m r c) : Rect m' r c := by
  unfold Rect at hm ⊢
  rw [h, hm]

/-- The augmentation branch of `__getitem__` (dataset.py lines 84–85). -/
def postAug (useAug : Bool) (rng : AugRand) (spec : Mat) : Mat :=
  if useAug then augment rng spec else spec

/-- Claim **C6**: if decoding the audio fails (`fs` returns `none` for the sample's
path), `__getitem__` still returns `Except.ok` — the decode error is never
observable by the caller.  The returned spectrogram is exactly the one the
pipeline produces from the fixed 2-second all-zero silence buffer, and it has
the normal shape (`n_mels`, `time_steps`). -/
theorem c6_decode_failure_silence (mel : List ℚ → Mat) (dbFun : ℚ → ℚ → ℚ)
    (d : AudioEmotionDataset) (fs : String → Option (List ℚ)) (rng : AugRand)
    (idx : ℕ) (row : CsvRow) (lab : ℕ)
    (hmel : ∀ y, (mel y).length = d.n_mels)
    (hrow : d.samples.get? idx = some row)
    (hlab : emotionToIdx row.label = some lab)
    (hfs : fs (d.data_dir ++ "/" ++ row.path) = none) :
    ∃ spec, getItem mel dbFun d fs rng idx = .ok (spec, lab) ∧
      Rect spec d.n_mels d.time_steps ∧
      spec = postAug d.use_augmentation rng
        (loadAndPreprocess mel dbFun d.n_mels d.time_steps d.sample_rate
          (some (List.replicate (d.sample_rate * 2) 0))) := by
  have hbase : loadAndPreprocess mel dbFun d.n_mels d.time_steps d.sample_rate none =
      loadAndPreprocess mel dbFun d.n_mels d.time_steps d.sample_rate
        (some (List.replicate (d.sample_rate * 2) 0)) := by
    unfold loadAndPreprocess
    rw [decodeOrSilence_none]
  refine ⟨_, ?_, ?_, rfl⟩
  · unfold getItem
    rw [hrow]
    simp only [hlab, hfs, hbase]
    rfl
  · have hr : Rect (loadAndPreprocess mel dbFun d.n_mels d.time_steps
        d.sample_rate (some (List.replicate (d.sample_rate * 2) 0)))
        d.n_mels d.time_steps :=
      loadAndPreprocess_rect mel dbFun d.n_mels d.time_steps d.sample_rate _ hmel
    unfold postAug
    split
    · exact rect_of_rowLengths_eq (rowLengths_augment rng _) hr
    · exact hr

/-- Claim **C6** witness: a one-row dataset with a known label, a decoder that fails
on every path, small configuration (`n_mels = 2`, `time_steps = 4`,
`sample_rate = 10`), no augmentation. -/
theorem c6_decode_failure_silence_witness :
    ∃ spec, getItem (melModel 2) dbModel
        (datasetInit [⟨"a.wav", "happy"⟩] ("data") 2 4 10 false) fsNone rngNeutral 0 =
        .ok (spec, 0) ∧
      Rect spec 2 4 ∧
      spec = postAug false rngNeutral
        (loadAndPreprocess (melModel 2) dbModel 2 4 10
          (some (List.replicate (10 * 2) 0))) :=
  c6_decode_failure_silence (melModel 2) dbModel
    (datasetInit [⟨"a.wav", "happy"⟩] ("data") 2 4 10 false) fsNone rngNeutral 0
    ⟨"a.wav", "happy"⟩ 0 (melModel_length 2) rfl rfl rfl

/-! ## C2: the train/val split and the shared `use_augmentation` flag
(train.py, `main`, lines 248–260)

`torch.utils.data.random_split` returns two `Subset` views that hold index
lists and a reference to the *same* underlying dataset object.  Line 257,
`val_dataset.dataset.use_augmentation = False`, therefore mutates the dataset
shared by both subsets. -/

/-- The two subset views produced by `random_split`: index lists over one
shared underlying dataset. -/
structure TrainValSplit where
  shared : AudioEmotionDataset
  trainIndices : List ℕ
  valIndices : List ℕ

/-- Embeds `random_split(full_dataset, [train_size, val_size], generator=...)`; the
seeded permutation is external (torch), so the chosen index lists are inputs. -/
def randomSplit (full : AudioEmotionDataset) (trainIndices valIndices : List ℕ) :
    TrainValSplit :=
  ⟨full, trainIndices, valIndices⟩

/-- Embeds train.py lines 250–257: build the split, then execute
`val_dataset.dataset.use_augmentation = False`, which rewrites the flag on the
single shared dataset object. -/
def setupLoaders (full : AudioEmotionDataset) (trainIndices valIndices : List ℕ) :
    TrainValSplit :=
  let split := randomSplit full trainIndices valIndices
  { split with shared := { split.shared with use_augmentation := false } }

/-- Embeds `Subset.__getitem__`: translate the subset index and delegate to the
shared dataset ( `fromTrain = true` fetches through the training subset). -/
def subsetGetItem (mel : List ℚ → Mat) (dbFun : ℚ → ℚ → ℚ) (s : TrainValSplit)
    (fromTrain : Bool) (fs : String → Option (List ℚ)) (rng : AugRand)
    (i : ℕ) : Except String (Mat × ℕ) :=
  let indices := cond fromTrain s.trainIndices s.valIndices
  match indices.get? i with
  | none => .error ("IndexError")
  | some j => getItem mel dbFun s.shared fs rng j

/-- On a dataset whose augmentation flag is off, `__getitem__` returns the raw
spectrogram straight from `_load_and_preprocess`. -/
theorem getItem_no_aug (mel : List ℚ → Mat) (dbFun : ℚ → ℚ → ℚ)
    (d : AudioEmotionDataset) (fs : String → Option (List ℚ)) (rng : AugRand)
    (idx : ℕ) (row : CsvRow) (lab : ℕ)
    (hd : d.use_augmentation = false)
    (hrow : d.samples.get? idx = some row)
    (hlab : emotionToIdx row.label = some lab) :
    getItem mel dbFun d fs rng idx =
      .ok (loadAndPreprocess mel dbFun d.n_mels d.time_steps d.sample_rate
        (fs (d.data_dir ++ "/" ++ row.path)), lab) := by
  unfold getItem
  rw [hrow]
  simp only [hlab, hd, Bool.false_eq_true, if_false]

/-- Claim **C2** (code behaviour at the failing input): even when the dataset was
constructed with `use_augmentation = true`, after train.py's split setup
*every* fetch through the **training** subset returns the raw, never-augmented
spectrogram: line 257 turned augmentation off on the dataset object shared by
both subsets, so the requested training-time augmentation is silently lost. -/
theorem c2_train_split_fetch_unaugmented (mel : List ℚ → Mat)
    (dbFun : ℚ → ℚ → ℚ) (full : AudioEmotionDataset)
    (trainIndices valIndices : List ℕ) (fs : String → Option (List ℚ))
    (rng : AugRand) (i j : ℕ) (row : CsvRow) (lab : ℕ)
    (hfull : full.use_augmentation = true)
    (hj : trainIndices.get? i = some j)
    (hrow : full.samples.get? j = some row)
    (hlab : emotionToIdx row.label = some lab) :
    (setupLoaders full trainIndices valIndices).shared.use_augmentation = false ∧
    subsetGetItem mel dbFun (setupLoaders full trainIndices valIndices) true
        fs rng i =
      .ok (loadAndPreprocess mel dbFun full.n_mels full.time_steps
        full.sample_rate (fs (full.data_dir ++ "/" ++ row.path)), lab) := by
  refine ⟨rfl, ?_⟩
  show (match trainIndices.get? i with
    | none => (Except.error ("IndexError") : Except String (Mat × ℕ))
    | some j => getItem mel dbFun (setupLoaders full trainIndices valIndices).shared
        fs rng j) = _
  rw [hj]
  exact getItem_no_aug mel dbFun _ fs rng j row lab rfl hrow hlab

/-- Claim **C2** witness: a concrete one-row dataset built with
`use_augmentation = true`; after the split setup, the training-subset fetch of
that row yields the raw spectrogram. -/
theorem c2_train_split_fetch_unaugmented_witness :
    (setupLoaders (datasetInit [⟨"a.wav", "sad"⟩] ("data") 2 4 10 true) [0] []).shared.use_augmentation
        = false ∧
    subsetGetItem (melModel 2) dbModel
        (setupLoaders (datasetInit [⟨"a.wav", "sad"⟩] ("data") 2 4 10 true) [0] [])
        true fsNone rngNeutral 0 =
      .ok (loadAndPreprocess (melModel 2) dbModel 2 4 10 (fsNone ("data" ++ "/" ++ "a.wav")), 1) :=
  c2_train_split_fetch_unaugmented (melModel 2) dbModel
    (datasetInit [⟨"a.wav", "sad"⟩] ("data") 2 4 10 true) [0] [] fsNone rngNeutral
    0 0 ⟨"a.wav", "sad"⟩ 1 rfl rfl rfl rfl

/-! ## Serving classifier (expo-mnemo-backend/ml_model/emotion_classifier.py)

Module constants (lines 16–21). -/

def SAMPLE_RATE : ℕ := 16000
def DURATION : ℕ := 1
def N_MELS : ℕ := 64
def N_FFT : ℕ := 2048
def HOP_LENGTH : ℕ := 512
def N_FRAMES : ℕ := SAMPLE_RATE * DURATION / HOP_LENGTH + 1

/-- Model of `np.argmax`: index of the first maximal entry (0 on an empty list). -/
def argmaxAux : List ℚ → ℕ → ℕ → ℚ → ℕ
  | [], _, best, _ => best
  | x :: xs, i, best, bv =>
    if bv < x then argmaxAux xs (i + 1) i x else argmaxAux xs (i + 1) best bv

/-- First index of the maximum of a list. -/
def argmax : List ℚ → ℕ
  | [] => 0
  | x :: xs => argmaxAux xs 1 0 x

/-- Line 102 of emotion_classifier.py: min-max normalization
`(S - S.min()) / (S.max() - S.min() + 1e-8)` over all entries. -/
def normalize01 (m : Mat) : Mat :=
  let mn := matMin m
  let mx := matMax m
  m.map fun row => row.map fun x => (x - mn) / (mx - mn + 1 / 100000000)

/-- Embeds `EmotionClassifier.extract_features` (lines 68–110): decode up to 1 s of
audio (`none` models the `except` branch, which returns `None`), pad or trim
to exactly `SAMPLE_RATE * DURATION` samples, take the mel spectrogram,
convert to dB scale relative to the max, min-max normalize into [0, 1].
(The final `np.newaxis` reshape adds singleton batch/channel axes and touches
no entry; it is omitted.) -/
def extract_features (mel : List ℚ → Mat) (dbFun : ℚ → ℚ → ℚ)
    (decoded : Option (List ℚ)) : Option Mat :=
  match decoded with
  | none => none
  | some y =>
    let target_length := SAMPLE_RATE * DURATION
    let y := if y.length < target_length then
        y ++ List.replicate (target_length - y.length) 0
      else y.take target_length
    let mel_spec := mel y
    let mel_spec_db := powerToDb dbFun mel_spec
    some (normalize01 mel_spec_db)

/-- Embeds `EmotionClassifier._stub_classify` (lines 139–143): a uniformly chosen
label from `EMOTIONS` (`choice` is the drawn position) and a confidence
`0.6 + np.random.random() * 0.3`, where the draw `r` lies in [0, 1). -/
def stubClassify (choice : Fin EMOTIONS.length) (r : ℚ) : String × ℚ :=
  (EMOTIONS.get choice, 3/5 + r * (3/10))

/-- Embeds `EmotionClassifier.classify` (lines 112–137): with no model loaded, or
with feature extraction failing, fall back to the stub; otherwise predict and
take the argmax. -/
def classify (model : Option (Mat → List ℚ)) (features : Option Mat)
    (choice : Fin EMOTIONS.length) (r : ℚ) : String × ℚ :=
  match model with
  | none => stubClassify choice r
  | some predictFn =>
    match features with
    | none => stubClassify choice r
    | some f =>
      let predictions := predictFn f
      let emotion_idx := argmax predictions
      (EMOTIONS.getD emotion_idx ("neutral"), predictions.getD emotion_idx 0)

/-- Claim **C8**: with no model artifact loaded, every call of `classify` (whatever
the features and the random draws, hence every call in any sequence of
repeated calls) returns a label from the fixed 5-class set and a confidence
in [0.6, 0.9]. -/
theorem c8_stub_classify_range (features : Option Mat)
    (choice : Fin EMOTIONS.length) (r : ℚ) (hr0 : 0 ≤ r) (hr1 : r < 1) :
    (classify none features choice r).1 ∈ EMOTIONS ∧
    3/5 ≤ (classify none features choice r).2 ∧
    (classify none features choice r).2 ≤ 9/10 := by
  show EMOTIONS.get choice ∈ EMOTIONS ∧ 3/5 ≤ 3/5 + r * (3/10) ∧
    3/5 + r * (3/10) ≤ 9/10
  refine ⟨EMOTIONS.get_mem choice.1 choice.2, ?_, ?_⟩
  · nlinarith
  · nlinarith

/-- Claim **C8** witness: the draw `r = 1/2` with the first label position yields
("happy", 3/4) — a label in the class set with confidence in [0.6, 0.9]. -/
theorem c8_stub_classify_range_witness :
    (classify none none ⟨0, by decide⟩ (1/2)).1 ∈ EMOTIONS ∧
    3/5 ≤ (classify none none ⟨0, by decide⟩ (1/2)).2 ∧
    (classify none none ⟨0, by decide⟩ (1/2)).2 ≤ 9/10 :=
  c8_stub_classify_range none ⟨0, by decide⟩ (1/2) (by norm_num) (by norm_num)

/-! ## Single-file CLI (expo-mnemo-backend/ml_model/classify_audio.py) -/

/-- Outcome of `get_classifier(); classifier.classify(audio_path)` as observed
by the CLI's `try` block: a result, or a raised exception message. -/
inductive ClassifyOutcome where
  | ok (emotion : String) (confidence : ℚ)
  | exn (msg : String)

/-- The JSON object the CLI prints. -/
inductive CliPayload where
  | success (emotion : String) (confidence : ℚ)
  | failure (error : String) (emotion : String) (confidence : ℚ)
  deriving DecidableEq

/-- What a CLI run produces: the printed payload and the process exit code. -/
structure CliResult where
  payload : CliPayload
  exitCode : ℕ
  deriving DecidableEq

/-- Embeds `classify_audio.main` (lines 12–39): missing argv[1] → error payload with
the safe default and `sys.exit(1)`; a raised exception inside the `try` →
error payload with the safe default and `sys.exit(1)`; otherwise the
`{emotion, confidence}` payload and the implicit exit code 0. -/
def cliMain (argv : List String) (outcome : ClassifyOutcome) : CliResult :=
  if argv.length < 2 then
    ⟨.failure ("Audio path required") ("neutral") (1/2), 1⟩
  else
    match outcome with
    | .ok e c => ⟨.success e c, 0⟩
    | .exn msg => ⟨.failure msg ("neutral") (1/2), 1⟩

/-- Claim **C9**: the CLI is total — for every argv and classify outcome it emits
either a well-formed success payload with exit code 0, or an error payload
carrying the safe default {emotion: "neutral", confidence: 0.5} with exit
code 1; the three input cases map exactly as the code writes them, and the
exit code is 0 precisely on success payloads. -/
theorem c9_cli_total (argv : List String) (outcome : ClassifyOutcome) :
    (argv.length < 2 →
      cliMain argv outcome = ⟨.failure ("Audio path required") ("neutral") (1/2), 1⟩) ∧
    (2 ≤ argv.length → ∀ e c, outcome = .ok e c →
      cliMain argv outcome = ⟨.success e c, 0⟩) ∧
    (2 ≤ argv.length → ∀ msg, outcome = .exn msg →
      cliMain argv outcome = ⟨.failure msg ("neutral") (1/2), 1⟩) ∧
    ((cliMain argv outcome).exitCode = 0 ↔
      ∃ e c, (cliMain argv outcome).payload = .success e c) := by
  refine ⟨?_, ?_, ?_, ?_⟩
  · intro h
    simp [cliMain, h]
  · intro h e c ho
    subst ho
    simp [cliMain, Nat.not_lt.mpr h]
  · intro h msg ho
    subst ho
    simp [cliMain, Nat.not_lt.mpr h]
  · unfold cliMain
    split
    · simp
    · cases outcome <;> simp

/-- Claim **C9** witness: the three concrete runs — missing argument, successful
classification, raised exception — produce exactly the documented payloads
and exit codes. -/
theorem c9_cli_total_witness :
    cliMain ["classify_audio.py"] (.exn ("boom")) =
      ⟨.failure ("Audio path required") ("neutral") (1/2), 1⟩ ∧
    cliMain ["classify_audio.py", "a.wav"] (.ok ("happy") (3/4)) =
      ⟨.success ("happy") (3/4), 0⟩ ∧
    cliMain ["classify_audio.py", "a.wav"] (.exn ("boom")) =
      ⟨.failure ("boom") ("neutral") (1/2), 1⟩ :=
  ⟨(c9_cli_total ["classify_audio.py"] (.exn ("boom"))).1 (by decide),
   (c9_cli_total ["classify_audio.py", "a.wav"] (.ok ("happy") (3/4))).2.1
     (by decide) ("happy") (3/4) rfl,
   (c9_cli_total ["classify_audio.py", "a.wav"] (.exn ("boom"))).2.2.1
     (by decide) ("boom") rfl⟩

/-! ## C10: serving-path features lie in [0, 1] -/

theorem listMinA_le_init (a : ℚ) (l : List ℚ) : listMinA a l ≤ a := by
  induction l generalizing a with
  | nil => exact le_refl a
  | cons x xs ih => exact le_trans (ih (min a x)) (min_le_left a x)

theorem listMinA_le_mem (a x : ℚ) (l : List ℚ) (h : x ∈ l) :
    listMinA a l ≤ x := by
  induction l generalizing a with
  | nil => cases h
  | cons y ys ih =>
    rcases List.mem_cons.mp h with rfl | hy
    · exact le_trans (listMinA_le_init (min a x) ys) (min_le_right a x)
    · exact ih (min a y) hy

theorem le_listMaxA_init (a : ℚ) (l : List ℚ) : a ≤ listMaxA a l := by
  induction l generalizing a with
  | nil => exact le_refl a
  | cons x xs ih => exact le_trans (le_max_left a x) (ih (max a x))

theorem le_listMaxA_mem (a x : ℚ) (l : List ℚ) (h : x ∈ l) :
    x ≤ listMaxA a l := by
  induction l generalizing a with
  | nil => cases h
  | cons y ys ih =>
    rcases List.mem_cons.mp h with rfl | hy
    · exact le_trans (le_max_right a x) (le_listMaxA_init (max a x) ys)
    · exact ih (max a y) hy

theorem matMin_le (m : Mat) (x : ℚ) (h : x ∈ m.flatten) : matMin m ≤ x := by
  unfold matMin
  rcases hf : m.flatten with _ | ⟨y, ys⟩
  · rw [hf] at h; cases h
  · rw [hf] at h
    rcases List.mem_cons.mp h with rfl | hy
    · exact listMinA_le_init x ys
    · exact listMinA_le_mem y x ys hy

theorem le_matMax (m : Mat) (x : ℚ) (h : x ∈ m.flatten) : x ≤ matMax m := by
  unfold matMax
  rcases hf : m.flatten with _ | ⟨y, ys⟩
  · rw [hf] at h; cases h
  · rw [hf] at h
    rcases List.mem_cons.mp h with rfl | hy
    · exact le_listMaxA_init x ys
    · exact le_listMaxA_mem y x ys hy

/-- Every entry of `normalize01 m` is the normalized image of an entry of
`m`. -/
theorem mem_normalize01 (m : Mat) (z : ℚ) (h : z ∈ (normalize01 m).flatten) :
    ∃ x ∈ m.flatten,
      z = (x - matMin m) / (matMax m - matMin m + 1 / 100000000) := by
  unfold normalize01 at h
  simp only [List.mem_flatten, List.mem_map] at h
  obtain ⟨row', ⟨row, hrow, hrow'⟩, hz⟩ := h
  subst hrow'
  simp only [List.mem_map] at hz
  obtain ⟨x, hx, hzx⟩ := hz
  exact ⟨x, List.mem_flatten.mpr ⟨row, hrow, hx⟩, hzx.symm⟩

/-- The min-max normalization with the `+ 1e-8` guard lands in [0, 1]. -/
theorem normalize01_bounds (m : Mat) (z : ℚ) (h : z ∈ (normalize01 m).flatten) :
    0 ≤ z ∧ z ≤ 1 := by
  obtain ⟨x, hx, rfl⟩ := mem_normalize01 m z h
  have hmn : matMin m ≤ x := matMin_le m x hx
  have hmx : x ≤ matMax m := le_matMax m x hx
  have hd : (0 : ℚ) < matMax m - matMin m + 1 / 100000000 := by linarith
  constructor
  · exact div_nonneg (by linarith) (le_of_lt hd)
  · rw [div_le_one hd]
    linarith

theorem listMinA_const (c : ℚ) (l : List ℚ) (h : ∀ x ∈ l, x = c) :
    listMinA c l = c := by
  induction l with
  | nil => rfl
  | cons y ys ih =>
    have hy : y = c := h y (List.mem_cons_self y ys)
    subst hy
    simp only [listMinA, min_self]
    exact ih fun x hx => h x (List.mem_cons_of_mem y hx)

theorem matMin_const (m : Mat) (c : ℚ) (h : ∀ x ∈ m.flatten, x = c)
    (hne : m.flatten ≠ []) : matMin m = c := by
  unfold matMin
  rcases hf : m.flatten with _ | ⟨y, ys⟩
  · exact absurd hf hne
  · rw [hf] at h
    have hy : y = c := h y (List.mem_cons_self y ys)
    subst hy
    exact listMinA_const y ys fun x hx => h x (List.mem_cons_of_mem y hx)

/-- Claim **C10**: whenever the serving-path `extract_features` succeeds, every
entry of the returned feature matrix lies in [0, 1]; and on a constant-valued
spectrogram the min-max normalization step sends every entry to 0 (the
`+ 1e-8` in the denominator prevents 0/0). -/
theorem c10_serving_features_unit_interval :
    (∀ (mel : List ℚ → Mat) (dbFun : ℚ → ℚ → ℚ) (decoded : Option (List ℚ))
      (m : Mat), extract_features mel dbFun decoded = some m →
        ∀ x ∈ m.flatten, 0 ≤ x ∧ x ≤ 1) ∧
    (∀ (s : Mat) (c : ℚ), (∀ x ∈ s.flatten, x = c) →
      ∀ z ∈ (normalize01 s).flatten, z = 0) := by
  constructor
  · intro mel dbFun decoded m hm x hx
    rcases decoded with _ | y
    · cases hm
    · unfold extract_features at hm
      simp only [Option.some.injEq] at hm
      subst hm
      exact normalize01_bounds _ x hx
  · intro s c hc z hz
    obtain ⟨x, hx, rfl⟩ := mem_normalize01 s z hz
    have hne : s.flatten ≠ [] := by
      intro hf
      rw [hf] at hx
      cases hx
    rw [hc x hx, matMin_const s c hc hne, sub_self, zero_div]

/-- Claim **C10** witness: a concrete decode (`y = [1, 2]`) through a concrete mel
model produces a feature matrix whose entries are all in [0, 1]; a constant
2-entry spectrogram normalizes to all zeros. -/
theorem c10_serving_features_unit_interval_witness :
    (0 ≤ (0 : ℚ) ∧ (0 : ℚ) ≤ 1) ∧ (0 : ℚ) = 0 :=
  ⟨c10_serving_features_unit_interval.1 (fun _ => [[0, 1]]) dbModel
      (some [1, 2]) (normalize01 (powerToDb dbModel [[0, 1]])) rfl 0
      (by norm_num [normalize01, powerToDb, matMin, matMax, listMinA, listMaxA,
        dbModel]),
   c10_serving_features_unit_interval.2 [[5, 5]] 5 (by decide) 0
      (by norm_num [normalize01, matMin, matMax, listMinA, listMaxA])⟩

end Mnemo
